import Mathlib

/-!
Verification of the `uring_bpm` buffer pool manager core.

Shallow embedding of the Rust sources:
  * `src/replacer/mysql.rs` — the segmented-LRU replacer (`MySQLReplacer`);
  * `src/hybrid_lock.rs`    — the hybrid (optimistic) reader-writer lock;
  * `src/page.rs`           — the per-page state machine, swip and guards;
  * `src/buffer_pool.rs`    — the frame manager / eviction path.

Machine integers (`usize`, `u64`, `u8`) are modelled as `Nat`; the values in
play (list lengths, version counters, state tags) never approach overflow in
any statement below.  Rust `Vec` becomes `List` (index 0 is the front of the
vector, `push` appends at the back).  A Rust `panic!` / failed `assert!` /
out-of-bounds index is modelled by a dedicated "panic" constructor of the
result type of the translated function, and `anyhow::Result` errors by an
"err" constructor, so that every fallible operation is total and executable.
-/

set_option autoImplicit false

/-- Outcome of a Rust computation that can panic (failed assertion,
out-of-bounds index, `unwrap` on `None`). -/
inductive PanicOr (α : Type) where
  | panic : PanicOr α
  | ok : α → PanicOr α
deriving DecidableEq, Repr

/-- `AccessType` from `src/replacer/mod.rs`. -/
inductive AccessType where
  | Lookup
  | Scan
  | Index
  | Unknown
deriving DecidableEq, Repr

/-- `MySQLReplacerNode` from `src/replacer/mysql.rs`: a frame id together
with its replaceable (not-pinned) flag. -/
structure MySQLReplacerNode where
  id : Nat
  replaceable : Bool
deriving DecidableEq, Repr

/-- `impl From<usize> for MySQLReplacerNode`: a freshly constructed node is
always replaceable. -/
def MySQLReplacerNode.fromId (value : Nat) : MySQLReplacerNode :=
  { id := value, replaceable := true }

/-- `MySQLReplacer` from `src/replacer/mysql.rs`: the segmented LRU state.
The head of each list is index 0 (Rust `Vec` front). -/
structure MySQLReplacer where
  total_size : Nat
  max_young_size : Nat
  young_frames : List MySQLReplacerNode
  old_frames : List MySQLReplacerNode
deriving DecidableEq, Repr

/-- `MySQLReplacer::new`. -/
def MySQLReplacer.new (size : Nat) : MySQLReplacer :=
  { total_size := size
    max_young_size := size / 2
    young_frames := []
    old_frames := [] }

/-- Rust `Iterator::position`: index of the first element satisfying `p`. -/
def position {α : Type} (p : α → Bool) : List α → Option Nat
  | [] => none
  | x :: xs => if p x then some 0 else (position p xs).map (fun i => i + 1)

/-- `MySQLReplacer::is_replaceable`: look up `fid` in old then young;
`none` models the `anyhow::bail!` error when the frame is in neither list. -/
def MySQLReplacer.is_replaceable (r : MySQLReplacer) (fid : Nat) : Option Bool :=
  match position (fun x => x.id == fid) r.old_frames with
  | some i => (r.old_frames.get? i).map (fun n => n.replaceable)
  | none =>
    match position (fun x => x.id == fid) r.young_frames with
    | some i => (r.young_frames.get? i).map (fun n => n.replaceable)
    | none => none

/-- The loop `for i in (0..frames.len()).rev()` of `MySQLReplacer::replace`,
entered with `i = frames.len()`: the largest index `< i` whose node is
replaceable, scanning from the tail toward the head. -/
def scanBack (frames : List MySQLReplacerNode) : Nat → Option Nat
  | 0 => none
  | i + 1 =>
    if ((frames.get? i).map (fun n => n.replaceable)).getD false then some i
    else scanBack frames i

/-- The body of one list scan in `MySQLReplacer::replace`.  The Rust code
runs `frames.remove(i)` FIRST and only then returns `frames[i].id`, reading
the post-removal vector: when `i` was the last index this indexing is out of
bounds (panic), and otherwise it yields the id of the element that followed
the removed one. -/
def replaceFrom (frames : List MySQLReplacerNode) :
    Option (PanicOr (Nat × List MySQLReplacerNode)) :=
  match scanBack frames frames.length with
  | none => none
  | some i =>
    let removed := frames.eraseIdx i
    match removed.get? i with
    | none => some PanicOr.panic
    | some node => some (PanicOr.ok (node.id, removed))

/-- `MySQLReplacer::replace`: scan the old list from the tail, then the young
list, returning `ok (none, _)` when everything is pinned. -/
def MySQLReplacer.replace (r : MySQLReplacer) : PanicOr (Option Nat × MySQLReplacer) :=
  match replaceFrom r.old_frames with
  | some PanicOr.panic => PanicOr.panic
  | some (PanicOr.ok (fid, old2)) => PanicOr.ok (some fid, { r with old_frames := old2 })
  | none =>
    match replaceFrom r.young_frames with
    | some PanicOr.panic => PanicOr.panic
    | some (PanicOr.ok (fid, young2)) => PanicOr.ok (some fid, { r with young_frames := young2 })
    | none => PanicOr.ok (none, r)

/-- The three insertion branches of `MySQLReplacer::record` (everything before
the demotion bookkeeping).  `none` models the panic of `self.old_frames[0]`
when the old list is judged full while actually empty. -/
def MySQLReplacer.recordStep (r : MySQLReplacer) (fid : Nat) (metadata : AccessType) :
    Option MySQLReplacer :=
  match position (fun x => x.id == fid) r.old_frames with
  | some i =>
    match metadata with
    | AccessType.Lookup =>
      some { r with old_frames := r.old_frames.eraseIdx i
                    young_frames := MySQLReplacerNode.fromId fid :: r.young_frames }
    | _ =>
      some { r with old_frames := MySQLReplacerNode.fromId fid :: r.old_frames.eraseIdx i }
  | none =>
    match position (fun x => x.id == fid) r.young_frames with
    | some i =>
      some { r with young_frames :=
               MySQLReplacerNode.fromId fid :: r.young_frames.eraseIdx i }
    | none =>
      if r.total_size - r.max_young_size ≤ r.old_frames.length then
        match r.old_frames with
        | [] => none
        | h :: t =>
          some { r with young_frames := r.young_frames ++ [h]
                        old_frames := MySQLReplacerNode.fromId fid :: t }
      else
        some { r with old_frames := MySQLReplacerNode.fromId fid :: r.old_frames }

/-- The "extra bookkeeping" demotion step of `MySQLReplacer::record`:
`if young_frames.len() >= max_young_size`, pop the back of young and insert
it at the head of old.  `none` models the panic of `pop().unwrap()` on an
empty young list. -/
def MySQLReplacer.demoteStep (r : MySQLReplacer) : Option MySQLReplacer :=
  if r.max_young_size ≤ r.young_frames.length then
    match r.young_frames.getLast? with
    | none => none
    | some oldest_young =>
      some { r with young_frames := r.young_frames.dropLast
                    old_frames := oldest_young :: r.old_frames }
  else some r

/-- Outcome of `MySQLReplacer::record`: `err` is the `anyhow::ensure!`
failure, `panic` a failed `assert!` or `unwrap`. -/
inductive RecordResult where
  | err : RecordResult
  | panic : RecordResult
  | ok : MySQLReplacer → RecordResult
deriving DecidableEq, Repr

/-- `MySQLReplacer::record`: the guard `ensure!(fid < total_size)`, the three
insertion branches, the demotion, and the two trailing size `assert!`s. -/
def MySQLReplacer.record (r : MySQLReplacer) (fid : Nat) (metadata : AccessType) :
    RecordResult :=
  if fid < r.total_size then
    match r.recordStep fid metadata with
    | none => RecordResult.panic
    | some r1 =>
      match r1.demoteStep with
      | none => RecordResult.panic
      | some r2 =>
        if r2.young_frames.length ≤ r2.max_young_size then
          if r2.old_frames.length ≤ r2.total_size - r2.max_young_size then RecordResult.ok r2
          else RecordResult.panic
        else RecordResult.panic
  else RecordResult.err

/-- `self.old_frames[i].replaceable = is_replaceable` at index `i`. -/
def setReplaceableAt : List MySQLReplacerNode → Nat → Bool → List MySQLReplacerNode
  | [], _, _ => []
  | x :: xs, 0, b => { x with replaceable := b } :: xs
  | x :: xs, i + 1, b => x :: setReplaceableAt xs i b

/-- `MySQLReplacer::set_replaceable`; `none` models the `bail!` error. -/
def MySQLReplacer.set_replaceable (r : MySQLReplacer) (fid : Nat) (b : Bool) :
    Option MySQLReplacer :=
  match position (fun x => x.id == fid) r.old_frames with
  | some i => some { r with old_frames := setReplaceableAt r.old_frames i b }
  | none =>
    match position (fun x => x.id == fid) r.young_frames with
    | some i => some { r with young_frames := setReplaceableAt r.young_frames i b }
    | none => none

/-- Run a sequence of `record` calls, stopping at the first error or panic. -/
def recordAll (r : MySQLReplacer) : List (Nat × AccessType) → RecordResult
  | [] => RecordResult.ok r
  | (fid, k) :: rest =>
    match r.record fid k with
    | RecordResult.ok r2 => recordAll r2 rest
    | RecordResult.err => RecordResult.err
    | RecordResult.panic => RecordResult.panic

/-- All nodes currently tracked by the replacer, old list first (the order in
which `is_replaceable` searches). -/
def MySQLReplacer.nodes (r : MySQLReplacer) : List MySQLReplacerNode :=
  r.old_frames ++ r.young_frames

/-! ## Hybrid lock (`src/hybrid_lock.rs`) -/

/-- The atomic bookkeeping of `HybridLock<T>`: the `locked_exclusive` flag and
the `version` counter.  The rwlock-protected value itself plays no role in the
lock-state transitions and is modelled separately where needed. -/
structure HybridLock where
  locked_exclusive : Bool
  version : Nat
deriving DecidableEq, Repr

/-- `HybridLock::new`. -/
def HybridLock.mkNew : HybridLock :=
  { locked_exclusive := false, version := 0 }

/-- `HybridLock::write`: after the inner rwlock write acquisition succeeds,
`locked_exclusive.store(LOCKED, Release)`. -/
def HybridLock.write_acquire (s : HybridLock) : HybridLock :=
  { s with locked_exclusive := true }

/-- `impl Drop for HybridRwLockWriteGuard` (`src/hybrid_lock.rs` lines
170-176): the entire body is `locked_exclusive.store(UNLOCKED, Release)`.
No other field is touched — in particular `version` is left unchanged. -/
def HybridRwLockWriteGuard.drop (s : HybridLock) : HybridLock :=
  { s with locked_exclusive := false }

/-- The values observed by one run of `HybridLock::optimistic` over data of
type `T`.  Concurrent writers are modelled by letting the four atomic loads
and the two data reads be arbitrary: `locked_before`/`locked_after` are the
two `is_locked_exclusive()` loads, `pre_version`/`post_version` the two
`current_version()` loads, `seen` what `f` reads through `data_ptr()` during
the lock-free run, and `stable` what `f` reads under the read guard in
`fallback`. -/
structure OptimisticTrace (T : Type) where
  locked_before : Bool
  pre_version : Nat
  seen : T
  locked_after : Bool
  post_version : Nat
  stable : T

/-- `HybridLock::try_optimistic`: check the flag, read `pre_version`, run `f`
on the unprotected data, re-check the flag, compare versions. -/
def HybridLock.try_optimistic {T R : Type} (f : T → R) (t : OptimisticTrace T) : Option R :=
  if t.locked_before then none
  else
    let result := f t.seen
    if t.locked_after then none
    else if t.pre_version = t.post_version then some result
    else none

/-- `HybridLock::fallback`: acquire a read guard and run `f` on the protected
data. -/
def HybridLock.fallback {T R : Type} (f : T → R) (t : OptimisticTrace T) : R :=
  f t.stable

/-- `HybridLock::optimistic`: the optimistic result when validation passed,
otherwise the fallback result. -/
def HybridLock.optimistic {T R : Type} (f : T → R) (t : OptimisticTrace T) : R :=
  match HybridLock.try_optimistic f t with
  | some result => result
  | none => HybridLock.fallback f t

/-! ## Page state machine (`src/page.rs`) -/

/-- `HOT` tag of the `Temperature` atomic (`u8` constant 0). -/
def HOT : Nat := 0

/-- `COOL` tag of the `Temperature` atomic (`u8` constant 1). -/
def COOL : Nat := 1

/-- `COLD` tag of the `Temperature` atomic (`u8` constant 2). -/
def COLD : Nat := 2

/-- `Temperature::try_hot`: `compare_exchange(COOL, HOT, ..)` — the state
becomes `HOT` exactly when it currently is `COOL`, and is unchanged
otherwise (the result of the CAS is ignored). -/
def Temperature.try_hot (s : Nat) : Nat :=
  if s = COOL then HOT else s

/-- Contents of a memory frame (`Frame` in `src/frame.rs`), abstracted to a
token: the byte payload is opaque to the page state machine. -/
abbrev FrameData := Nat

/-- `Swip`: an optional owned frame. -/
structure Swip where
  data : Option FrameData
deriving DecidableEq, Repr

/-- The mutable per-page state of `Page`: its temperature tag and its
rwlock-protected swip (`pid` and the back-pointer to the BPM are constant and
irrelevant for the translated transitions). -/
structure Page where
  state : Nat
  swip : Swip
deriving DecidableEq, Repr

/-- Outcome of `Page::load`: `panic` covers the `assert_eq!(state, COLD)`
failure and `res.expect(..)` on a disk-read error. -/
inductive LoadResult where
  | panic : LoadResult
  | ok : Page → LoadResult
deriving DecidableEq, Repr

/-- `Page::load`: assert the state is `COLD`, obtain a free frame from the
BPM, read the page from disk into it (`disk_read` returns `none` on an I/O
error, which the code hits with `res.expect("Unable to write data to disk")`
— a panic), install the frame into the swip and store `COOL`. -/
def Page.load (p : Page) (free_frame : FrameData)
    (disk_read : FrameData → Option FrameData) : LoadResult :=
  if p.state = COLD then
    match disk_read free_frame with
    | none => LoadResult.panic
    | some frame => LoadResult.ok { state := COOL, swip := ⟨some frame⟩ }
  else LoadResult.panic

/-- Outcome of `Page::evict`: `err` is the `io::Error` (`NotFound`) returned
when the swip is already empty; `panic` is `res.expect(..)` on a disk-write
error.  On `err` and `ok` the resulting page state is carried alongside. -/
inductive PageEvictResult where
  | panic : PageEvictResult
  | err : Page → PageEvictResult
  | ok : FrameData → Page → PageEvictResult
deriving DecidableEq, Repr

/-- `Page::evict`: store `COLD`, take the write guard, error out if the swip
is empty, otherwise take the frame out, write it to disk (`disk_write`
returns `none` on an I/O error, hit with `res.expect(..)` — a panic) and
return it. -/
def Page.evict (p : Page) (disk_write : FrameData → Option FrameData) : PageEvictResult :=
  let p1 : Page := { p with state := COLD }
  match p1.swip.data with
  | none => PageEvictResult.err p1
  | some frame =>
    let p2 : Page := { p1 with swip := ⟨none⟩ }
    match disk_write frame with
    | none => PageEvictResult.panic
    | some frame2 => PageEvictResult.ok frame2 p2

/-- `ReadPageGuard`: wraps the read-locked `Swip`. -/
structure ReadPageGuard where
  inner : Swip
deriving DecidableEq, Repr

/-- `ReadPageGuard::new`: refuses (returns `none`) when the swip holds no
data. -/
def ReadPageGuard.new (guard : Swip) : Option ReadPageGuard :=
  if guard.data.isNone then none
  else some { inner := guard }

/-- `impl Deref for ReadPageGuard`: `some frame` on the normal branch; `none`
models the otherwise-taken `panic!` branch. -/
def ReadPageGuard.deref (g : ReadPageGuard) : Option FrameData :=
  g.inner.data

/-- `WritePageGuard`: wraps the write-locked `Swip`. -/
structure WritePageGuard where
  inner : Swip
deriving DecidableEq, Repr

/-- `WritePageGuard::new`: refuses (returns `none`) when the swip holds no
data. -/
def WritePageGuard.new (guard : Swip) : Option WritePageGuard :=
  if guard.data.isNone then none
  else some { inner := guard }

/-- `impl Deref for WritePageGuard`: `some frame` on the normal branch;
`none` models the otherwise-taken `panic!` branch. -/
def WritePageGuard.deref (g : WritePageGuard) : Option FrameData :=
  g.inner.data

/-- Outcome of `Page::read`: a guard plus the page state it left behind, or a
panic (failed `unwrap` on guard construction, failed assertion, or a disk
error inside `load`). -/
inductive PageReadResult where
  | panic : PageReadResult
  | ok : ReadPageGuard → Page → PageReadResult
deriving DecidableEq, Repr

/-- `Page::read`, sequentialised: `try_hot`; fast path returns a read guard
when the swip has data; otherwise take the write guard, re-check (in the
sequential model nothing ran in between, but the branch is kept), and load
from disk.  Each `ReadPageGuard::new(..).unwrap()` panics if `new` refuses. -/
def Page.read (p : Page) (free_frame : FrameData)
    (disk_read : FrameData → Option FrameData) : PageReadResult :=
  let p0 : Page := { p with state := Temperature.try_hot p.state }
  if p0.swip.data.isSome then
    match ReadPageGuard.new p0.swip with
    | none => PageReadResult.panic
    | some g => PageReadResult.ok g p0
  else
    if p0.swip.data.isSome then
      if p0.state = COLD then PageReadResult.panic
      else
        let p1 : Page := { p0 with state := Temperature.try_hot p0.state }
        match ReadPageGuard.new p1.swip with
        | none => PageReadResult.panic
        | some g => PageReadResult.ok g p1
    else
      match p0.load free_frame disk_read with
      | LoadResult.panic => PageReadResult.panic
      | LoadResult.ok p2 =>
        match ReadPageGuard.new p2.swip with
        | none => PageReadResult.panic
        | some g => PageReadResult.ok g p2

/-- Outcome of `Page::write`, as for `Page::read`. -/
inductive PageWriteResult where
  | panic : PageWriteResult
  | ok : WritePageGuard → Page → PageWriteResult
deriving DecidableEq, Repr

/-- `Page::write`, sequentialised: `try_hot`; take the write guard; return a
write guard directly when the swip has data, otherwise load from disk
first. -/
def Page.write (p : Page) (free_frame : FrameData)
    (disk_read : FrameData → Option FrameData) : PageWriteResult :=
  let p0 : Page := { p with state := Temperature.try_hot p.state }
  if p0.swip.data.isSome then
    match WritePageGuard.new p0.swip with
    | none => PageWriteResult.panic
    | some g => PageWriteResult.ok g p0
  else
    match p0.load free_frame disk_read with
    | LoadResult.panic => PageWriteResult.panic
    | LoadResult.ok p2 =>
      match WritePageGuard.new p2.swip with
      | none => PageWriteResult.panic
      | some g => PageWriteResult.ok g p2

/-! ## Buffer pool frame manager (`src/buffer_pool.rs`) -/

/-- Contents of a `PageBuf` (the buffer-pool iteration's frame payload),
abstracted to a token. -/
abbrev PageBuf := Nat

/-- The state of `BufferPool` / `FrameManager` from `src/buffer_pool.rs`,
with the backing file contents appended so that disk writes are observable:
`frames` are the `RwLock<Option<PageBuf>>` slots, `frame_pages` the
`Arc<[Option<PageId>]>` (initialised to all `None` in `BufferPool::new` and
never written anywhere in the file), `page_map` the `PageId → FrameId`
map (as an association list), and `disk` the backing file, page id to stored
payload. -/
structure BufferPool where
  frames : List (Option PageBuf)
  frame_pages : List (Option Nat)
  free_frames : List Nat
  page_map : List (Nat × Nat)
  replacer : MySQLReplacer
  disk : List (Nat × PageBuf)
deriving DecidableEq, Repr

/-- `DiskManager::write`: store `buf` at page `pid` of the backing file. -/
def DiskManager.write (disk : List (Nat × PageBuf)) (pid : Nat) (buf : PageBuf) :
    List (Nat × PageBuf) :=
  match disk with
  | [] => [(pid, buf)]
  | (p, b) :: rest =>
    if p = pid then (pid, buf) :: rest
    else (p, b) :: DiskManager.write rest pid buf

/-- Outcome of `BufferPool::flush`: `err` is the `ok_or` error when
`frame_pages[fid]` is `None`; `panic` covers the out-of-bounds index and
`take().expect(..)` on an empty frame slot. -/
inductive FlushResult where
  | panic : FlushResult
  | err : FlushResult
  | ok : BufferPool → FlushResult
deriving DecidableEq, Repr

/-- `BufferPool::flush`: look up the page id occupying `fid` in
`frame_pages`, take the frame out of its slot, write it to disk, put it
back. -/
def BufferPool.flush (bp : BufferPool) (fid : Nat) : FlushResult :=
  match bp.frame_pages.get? fid with
  | none => FlushResult.panic
  | some none => FlushResult.err
  | some (some pid) =>
    match bp.frames.get? fid with
    | none => FlushResult.panic
    | some none => FlushResult.panic
    | some (some buf) =>
      FlushResult.ok { bp with disk := DiskManager.write bp.disk pid buf }

/-- Outcome of `BufferPool::evict`: the returned `FrameId` and the new pool
state, an `anyhow` error when the replacer has no victim, or a panic
(from the replacer, or `expect("Frame was in replacer but not the page
map")`). -/
inductive EvictResult where
  | panic : EvictResult
  | err : EvictResult
  | ok : Nat → BufferPool → EvictResult
deriving DecidableEq, Repr

/-- `BufferPool::evict`: ask the replacer for a victim, find the page mapped
to that frame, remove it from the page map and hand the `FrameId` back.

The statement `self.flush(eviction_frame);` in the source calls the `async
fn flush` WITHOUT `.await`: the future is constructed and immediately
dropped, so the body of `flush` never executes and the disk is not written.
The translation therefore applies no disk effect at that point. -/
def BufferPool.evict (bp : BufferPool) : EvictResult :=
  match bp.replacer.replace with
  | PanicOr.panic => EvictResult.panic
  | PanicOr.ok (none, _) => EvictResult.err
  | PanicOr.ok (some eviction_frame, repl2) =>
    match bp.page_map.find? (fun pv => pv.2 == eviction_frame) with
    | none => EvictResult.panic
    | some (pid, _) =>
      EvictResult.ok eviction_frame
        { bp with replacer := repl2
                  page_map := bp.page_map.eraseP (fun pv => pv.1 == pid) }

/-! ## Concrete states used by the evaluation theorems -/

/-- A two-frame pool: frame 0 (payload 42) holds page 10, frame 1 (payload
99) holds page 11; the backing file still has the old payloads 7 and 8; the
replacer knows both frames, frame 0 pinned, frame 1 replaceable.
`frame_pages` is all `None`, exactly as `BufferPool::new` leaves it (nothing
in `src/buffer_pool.rs` ever writes to it). -/
def bpEx : BufferPool :=
  { frames := [some 42, some 99]
    frame_pages := [none, none]
    free_frames := []
    page_map := [(10, 0), (11, 1)]
    replacer := ⟨2, 1, [], [⟨1, true⟩, ⟨0, false⟩]⟩
    disk := [(10, 7), (11, 8)] }

/-- The pool state `BufferPool::evict` leaves behind on `bpEx`. -/
def bpEx2 : BufferPool :=
  { frames := [some 42, some 99]
    frame_pages := [none, none]
    free_frames := []
    page_map := [(11, 1)]
    replacer := ⟨2, 1, [], [⟨0, false⟩]⟩
    disk := [(10, 7), (11, 8)] }

/-! ## Theorems -/

/-- C1: dropping a `HybridRwLockWriteGuard` does NOT increment the version
counter — the `Drop` impl only clears `locked_exclusive`.  On a fresh lock,
an acquire-then-release of the write lock leaves the version at 0 (not
strictly greater than the version before acquisition), and in general the
drop leaves `version` unchanged on every lock state. -/
theorem writeGuardDrop_leaves_version_unchanged :
    (HybridRwLockWriteGuard.drop (HybridLock.write_acquire HybridLock.mkNew)).version = 0 ∧
    ¬ 0 < (HybridRwLockWriteGuard.drop (HybridLock.write_acquire HybridLock.mkNew)).version ∧
    ∀ s : HybridLock, (HybridRwLockWriteGuard.drop s).version = s.version ∧
      (HybridRwLockWriteGuard.drop s).locked_exclusive = false :=
  ⟨rfl, by decide, fun s => ⟨rfl, rfl⟩⟩

/-- C2: `MySQLReplacer::replace` removes the chosen entry BEFORE reading the
id to return, from the post-removal vector.  On the reachable state
`new(2)` followed by `record(0, Scan)` — old list `[{0, replaceable}]` —
the scan hits the tail, removes it, and then indexes out of bounds: a
panic.  And on old list `[{1, replaceable}, {0, pinned}]` it removes the
node with id 1 but returns id 0, the id of the still-pinned survivor. -/
theorem replace_panics_or_returns_wrong_id :
    (MySQLReplacer.new 2).record 0 AccessType.Scan =
      RecordResult.ok ⟨2, 1, [], [⟨0, true⟩]⟩ ∧
    (⟨2, 1, [], [⟨0, true⟩]⟩ : MySQLReplacer).replace = PanicOr.panic ∧
    (⟨2, 1, [], [⟨1, true⟩, ⟨0, false⟩]⟩ : MySQLReplacer).replace =
      PanicOr.ok (some 0, ⟨2, 1, [], [⟨0, false⟩]⟩) := by
  decide

/-- C3: `BufferPool::evict` hands the victim frame back WITHOUT writing its
contents to the backing file: the `self.flush(eviction_frame);` statement
drops the un-awaited future.  On `bpEx`, eviction succeeds and returns frame
0 whose in-memory payload is 42, while the backing file still holds payload
7 for every page after the call — the disk is untouched. -/
theorem evict_does_not_flush :
    BufferPool.evict bpEx = EvictResult.ok 0 bpEx2 ∧
    bpEx2.disk = bpEx.disk ∧
    bpEx.frames.get? 0 = some (some 42) ∧
    bpEx.disk = [(10, 7), (11, 8)] ∧
    BufferPool.flush bpEx 0 = FlushResult.err := by
  decide

/-- C4: a disk error during `Page::load` is NOT returned to the caller — the
code hits `res.expect("Unable to write data to disk")` and panics; likewise
a disk error during `Page::evict` panics instead of propagating. -/
theorem disk_errors_panic_in_load_and_evict :
    Page.load ⟨COLD, ⟨none⟩⟩ 5 (fun _ => none) = LoadResult.panic ∧
    Page.evict ⟨COOL, ⟨some 5⟩⟩ (fun _ => none) = PageEvictResult.panic :=
  ⟨rfl, rfl⟩

/-- C6: the replacer size invariant does not survive every operation
sequence.  On a replacer of total size 4 (young capacity 2, old capacity 2),
the sequence Scan 0, Scan 1, Lookup 0, Scan 2, Scan 3 drives the old list to
length 3 > 2 during the fifth `record`: the code's own
`assert!(old_frames.len() <= total_size - max_young_size)` fails, so that
`record` panics instead of returning Ok. -/
theorem record_size_assert_fails :
    recordAll (MySQLReplacer.new 4)
      [(0, AccessType.Scan), (1, AccessType.Scan), (0, AccessType.Lookup),
       (2, AccessType.Scan), (3, AccessType.Scan)] = RecordResult.panic := by
  decide

/-- C7: `optimistic` returns the lock-free result of `f` exactly when
validation succeeds — `locked_exclusive` observed false both before and
after the unprotected run and the version unchanged across it — and on any
validation failure it discards that result and returns `f` applied to the
data read under the read guard (`fallback`). -/
theorem optimistic_validation {T R : Type} (f : T → R) (t : OptimisticTrace T) :
    HybridLock.try_optimistic f t =
      (if t.locked_before = false ∧ t.locked_after = false ∧
          t.pre_version = t.post_version
       then some (f t.seen) else none) ∧
    HybridLock.optimistic f t =
      (if t.locked_before = false ∧ t.locked_after = false ∧
          t.pre_version = t.post_version
       then f t.seen else f t.stable) := by
  unfold HybridLock.optimistic HybridLock.try_optimistic HybridLock.fallback
  rcases hb : t.locked_before <;> rcases ha : t.locked_after <;>
    by_cases hv : t.pre_version = t.post_version <;>
    simp [hb, ha, hv]

/-- C8: `Temperature::try_hot` is a CAS from `COOL` only — the result is
`HOT` exactly when the state was `COOL` or already `HOT`; `COLD` and `HOT`
are left unchanged; and whenever the invariant "`COOL` implies the swip is
occupied" holds, a state that was not already `HOT` can only become `HOT`
with an occupied swip — a page can never become hot while its swip is
empty. -/
theorem try_hot_cas_from_cool (s : Nat) (sw : Option FrameData)
    (hinv : s = COOL → sw.isSome) :
    (Temperature.try_hot s = HOT ↔ (s = COOL ∨ s = HOT)) ∧
    Temperature.try_hot COLD = COLD ∧
    Temperature.try_hot HOT = HOT ∧
    (s ≠ HOT → Temperature.try_hot s = HOT → sw.isSome) := by
  refine ⟨?_, rfl, rfl, ?_⟩
  · unfold Temperature.try_hot HOT COOL
    split <;> omega
  · intro hne hh
    apply hinv
    revert hh
    unfold Temperature.try_hot HOT COOL at *
    split
    · intro _; assumption
    · intro hh; exact absurd hh hne

/-- C8 witness: on state `COOL` with an occupied swip, `try_hot` moves to
`HOT` and the occupancy conclusion holds. -/
theorem try_hot_cas_from_cool_witness :
    (Temperature.try_hot COOL = HOT ↔ (COOL = COOL ∨ COOL = HOT)) ∧
    Temperature.try_hot COLD = COLD ∧
    Temperature.try_hot HOT = HOT ∧
    (COOL ≠ HOT → Temperature.try_hot COOL = HOT → (some 3 : Option FrameData).isSome) :=
  try_hot_cas_from_cool COOL (some 3) (fun _ => rfl)

/-- `position` returns an index inside the list whose element satisfies the
predicate. -/
theorem position_eq_some_get {α : Type} (p : α → Bool) (l : List α) (i : Nat)
    (h : position p l = some i) : ∃ x, l.get? i = some x ∧ p x = true := by
  induction l generalizing i with
  | nil => simp [position] at h
  | cons x xs ih =>
    rw [position] at h
    by_cases hp : p x
    · rw [if_pos hp] at h
      injection h with h0
      subst h0
      exact ⟨x, rfl, hp⟩
    · rw [if_neg hp] at h
      rcases Option.map_eq_some'.mp h with ⟨j, hj, rfl⟩
      rcases ih j hj with ⟨y, hy, hpy⟩
      exact ⟨y, hy, hpy⟩

/-- `position` misses exactly when no element satisfies the predicate. -/
theorem position_eq_none_iff {α : Type} (p : α → Bool) (l : List α) :
    position p l = none ↔ ∀ x ∈ l, p x = false := by
  induction l with
  | nil => simp [position]
  | cons x xs ih =>
    rw [position]
    cases hp : p x with
    | true => simp [hp]
    | false => simp [hp, Option.map_eq_none', ih]

/-- Erasing the element found by `position` lowers `countP` by one. -/
theorem countP_eraseIdx_position {α : Type} (p : α → Bool) (l : List α) (i : Nat)
    (h : position p l = some i) :
    l.countP p = (l.eraseIdx i).countP p + 1 := by
  induction l generalizing i with
  | nil => simp [position] at h
  | cons x xs ih =>
    rw [position] at h
    by_cases hp : p x
    · rw [if_pos hp] at h
      injection h with h0
      subst h0
      simp [List.countP_cons, hp]
    · rw [if_neg hp] at h
      rcases Option.map_eq_some'.mp h with ⟨j, hj, rfl⟩
      simp [List.countP_cons, hp, ih j hj]

/-- C5 counterexample: with young `[{1}]` and a full old list
`[{0}, {2}, {3}]` (capacity 3), recording the new frame 5 promotes the old
head `{0}` to the BACK of the young list, so the claim that it becomes the
head of the young list fails: the resulting young list is `[{1}, {0}]`,
whose head is still `{1}`, not the migrated `{0}`. -/
theorem record_promotion_head_claim_false :
    (⟨6, 3, [⟨1, true⟩], [⟨0, true⟩, ⟨2, true⟩, ⟨3, true⟩]⟩ : MySQLReplacer).record 5
        AccessType.Scan =
      RecordResult.ok ⟨6, 3, [⟨1, true⟩, ⟨0, true⟩],
        [⟨5, true⟩, ⟨2, true⟩, ⟨3, true⟩]⟩ ∧
    ([⟨1, true⟩, ⟨0, true⟩] : List MySQLReplacerNode).head? ≠
      some ⟨0, true⟩ := by
  decide

/-- C5 (amended): in `record(fid, kind)`, when `fid` is in neither list and
the old list is at capacity, the old list's head entry is migrated to the
TAIL (back) of the young list, and only then is `fid` inserted at the head
of the old list. -/
theorem record_promotion_migrates_to_young_tail (r : MySQLReplacer) (fid : Nat)
    (k : AccessType)
    (hold : ∀ n ∈ r.old_frames, n.id ≠ fid)
    (hyoung : ∀ n ∈ r.young_frames, n.id ≠ fid)
    (hfull : r.total_size - r.max_young_size ≤ r.old_frames.length)
    (hne : r.old_frames ≠ []) :
    r.recordStep fid k =
      some { r with young_frames := r.young_frames ++ r.old_frames.take 1
                    old_frames := MySQLReplacerNode.fromId fid :: r.old_frames.tail } := by
  have hpo : position (fun x => x.id == fid) r.old_frames = none :=
    (position_eq_none_iff _ _).mpr fun x hx => beq_eq_false_iff_ne.mpr (hold x hx)
  have hpy : position (fun x => x.id == fid) r.young_frames = none :=
    (position_eq_none_iff _ _).mpr fun x hx => beq_eq_false_iff_ne.mpr (hyoung x hx)
  rcases List.exists_cons_of_ne_nil hne with ⟨h, t, hht⟩
  rw [MySQLReplacer.recordStep, hpo, hpy, if_pos hfull, hht]
  simp [hht]

/-- C5 witness: the amended promotion behaviour at the concrete state of the
counterexample. -/
theorem record_promotion_migrates_to_young_tail_witness :
    (⟨6, 3, [⟨1, true⟩], [⟨0, true⟩, ⟨2, true⟩, ⟨3, true⟩]⟩ : MySQLReplacer).recordStep 5
        AccessType.Scan =
      some ⟨6, 3, [⟨1, true⟩, ⟨0, true⟩], [⟨5, true⟩, ⟨2, true⟩, ⟨3, true⟩]⟩ :=
  record_promotion_migrates_to_young_tail
    ⟨6, 3, [⟨1, true⟩], [⟨0, true⟩, ⟨2, true⟩, ⟨3, true⟩]⟩ 5 AccessType.Scan
    (by decide) (by decide) (by decide) (by decide)

/-- If some tracked node carries `fid` and every tracked node carrying `fid`
is replaceable, `is_replaceable fid` answers `some true`. -/
theorem is_replaceable_of_fresh (r : MySQLReplacer) (fid : Nat)
    (hex : ∃ n ∈ r.nodes, n.id = fid)
    (hall : ∀ n ∈ r.nodes, n.id = fid → n.replaceable = true) :
    r.is_replaceable fid = some true := by
  rcases hex with ⟨n, hn, hnid⟩
  have hn' : n ∈ r.old_frames ++ r.young_frames := hn
  rw [MySQLReplacer.is_replaceable]
  cases hpo : position (fun x => x.id == fid) r.old_frames with
  | some i =>
    rcases position_eq_some_get _ _ _ hpo with ⟨x, hget, hpx⟩
    have hxid : x.id = fid := beq_iff_eq.mp hpx
    have hx : x ∈ r.nodes := List.mem_append_left _ (List.get?_mem hget)
    show (r.old_frames.get? i).map (fun n => n.replaceable) = some true
    rw [hget]
    simp [hall x hx hxid]
  | none =>
    have holdn := (position_eq_none_iff _ _).mp hpo
    have hny : n ∈ r.young_frames := by
      rcases List.mem_append.mp hn' with h1 | h2
      · exact absurd (beq_iff_eq.mpr hnid) (by simp [holdn n h1])
      · exact h2
    cases hpy : position (fun x => x.id == fid) r.young_frames with
    | some j =>
      rcases position_eq_some_get _ _ _ hpy with ⟨y, hget, hpyv⟩
      have hyid : y.id = fid := beq_iff_eq.mp hpyv
      have hy : y ∈ r.nodes := List.mem_append_right _ (List.get?_mem hget)
      show (r.young_frames.get? j).map (fun n => n.replaceable) = some true
      rw [hget]
      simp [hall y hy hyid]
    | none =>
      have hyn := (position_eq_none_iff _ _).mp hpy
      exact absurd (beq_iff_eq.mpr hnid) (by simp [hyn n hny])

/-- After the insertion branches of `record` run on a state in which `fid`
occurs exactly once, the only tracked node with id `fid` is the freshly
constructed one, hence replaceable. -/
theorem recordStep_fresh (r : MySQLReplacer) (fid : Nat) (k : AccessType)
    (r1 : MySQLReplacer)
    (huniq : r.nodes.countP (fun x => x.id == fid) = 1)
    (h : r.recordStep fid k = some r1) :
    (∃ n ∈ r1.nodes, n.id = fid) ∧
    (∀ n ∈ r1.nodes, n.id = fid → n.replaceable = true) := by
  simp only [MySQLReplacer.nodes, List.countP_append] at huniq
  rw [MySQLReplacer.recordStep] at h
  cases hpo : position (fun x => x.id == fid) r.old_frames with
  | some i =>
    rw [hpo] at h
    have hcnt := countP_eraseIdx_position _ _ _ hpo
    have herz : (r.old_frames.eraseIdx i).countP (fun x => x.id == fid) = 0 := by omega
    have hyz : r.young_frames.countP (fun x => x.id == fid) = 0 := by omega
    have her : ∀ x ∈ r.old_frames.eraseIdx i, ¬ x.id = fid := by
      intro x hx
      have := List.countP_eq_zero.mp herz x hx
      simpa using this
    have hyy : ∀ x ∈ r.young_frames, ¬ x.id = fid := by
      intro x hx
      have := List.countP_eq_zero.mp hyz x hx
      simpa using this
    rcases k with _ | _ | _ | _
    case Lookup =>
      injection h with h1
      subst h1
      refine ⟨⟨MySQLReplacerNode.fromId fid,
        List.mem_append_right _ (List.mem_cons_self _ _), rfl⟩, ?_⟩
      intro n hn hnid
      have hn' : n ∈ r.old_frames.eraseIdx i ++
          (MySQLReplacerNode.fromId fid :: r.young_frames) := hn
      rcases List.mem_append.mp hn' with h2 | h2
      · exact absurd hnid (her n h2)
      · rcases List.mem_cons.mp h2 with h3 | h3
        · subst h3; rfl
        · exact absurd hnid (hyy n h3)
    all_goals
      injection h with h1
      subst h1
      refine ⟨⟨MySQLReplacerNode.fromId fid,
        List.mem_append_left _ (List.mem_cons_self _ _), rfl⟩, ?_⟩
      intro n hn hnid
      have hn' : n ∈ (MySQLReplacerNode.fromId fid :: r.old_frames.eraseIdx i) ++
          r.young_frames := hn
      rcases List.mem_append.mp hn' with h2 | h2
      · rcases List.mem_cons.mp h2 with h3 | h3
        · subst h3; rfl
        · exact absurd hnid (her n h3)
      · exact absurd hnid (hyy n h2)
  | none =>
    rw [hpo] at h
    have holdz : r.old_frames.countP (fun x => x.id == fid) = 0 := by
      apply List.countP_eq_zero.mpr
      intro x hx
      simp [(position_eq_none_iff _ _).mp hpo x hx]
    cases hpy : position (fun x => x.id == fid) r.young_frames with
    | some j =>
      rw [hpy] at h
      have hcnt := countP_eraseIdx_position _ _ _ hpy
      have herz : (r.young_frames.eraseIdx j).countP (fun x => x.id == fid) = 0 := by
        omega
      have her : ∀ x ∈ r.young_frames.eraseIdx j, ¬ x.id = fid := by
        intro x hx
        have := List.countP_eq_zero.mp herz x hx
        simpa using this
      have hoo : ∀ x ∈ r.old_frames, ¬ x.id = fid := by
        intro x hx
        have := List.countP_eq_zero.mp holdz x hx
        simpa using this
      injection h with h1
      subst h1
      refine ⟨⟨MySQLReplacerNode.fromId fid,
        List.mem_append_right _ (List.mem_cons_self _ _), rfl⟩, ?_⟩
      intro n hn hnid
      have hn' : n ∈ r.old_frames ++
          (MySQLReplacerNode.fromId fid :: r.young_frames.eraseIdx j) := hn
      rcases List.mem_append.mp hn' with h2 | h2
      · exact absurd hnid (hoo n h2)
      · rcases List.mem_cons.mp h2 with h3 | h3
        · subst h3; rfl
        · exact absurd hnid (her n h3)
    | none =>
      have hyz : r.young_frames.countP (fun x => x.id == fid) = 0 := by
        apply List.countP_eq_zero.mpr
        intro x hx
        simp [(position_eq_none_iff _ _).mp hpy x hx]
      omega

/-- The demotion step permutes nodes between the two lists but neither adds
nor removes any. -/
theorem demoteStep_mem (r1 r2 : MySQLReplacer) (h : r1.demoteStep = some r2)
    (n : MySQLReplacerNode) : n ∈ r2.nodes ↔ n ∈ r1.nodes := by
  rw [MySQLReplacer.demoteStep] at h
  by_cases hc : r1.max_young_size ≤ r1.young_frames.length
  · rw [if_pos hc] at h
    cases hl : r1.young_frames.getLast? with
    | none => rw [hl] at h; cases h
    | some a =>
      rw [hl] at h
      injection h with h1
      subst h1
      have hid : r1.young_frames.dropLast ++ [a] = r1.young_frames :=
        List.dropLast_append_getLast? a (Option.mem_def.mpr hl)
      constructor
      · intro hn
        have hn' : n ∈ (a :: r1.old_frames) ++ r1.young_frames.dropLast := hn
        rcases List.mem_append.mp hn' with h2 | h2
        · rcases List.mem_cons.mp h2 with h3 | h3
          · subst h3
            refine List.mem_append_right _ ?_
            rw [← hid]
            exact List.mem_append_right _ (List.mem_cons_self _ _)
          · exact List.mem_append_left _ h3
        · refine List.mem_append_right _ ?_
          rw [← hid]
          exact List.mem_append_left _ h2
      · intro hn
        have hn' : n ∈ r1.old_frames ++ r1.young_frames := hn
        rcases List.mem_append.mp hn' with h2 | h2
        · exact List.mem_append_left _ (List.mem_cons_of_mem _ h2)
        · rw [← hid] at h2
          rcases List.mem_append.mp h2 with h3 | h3
          · exact List.mem_append_right _ h3
          · have h4 : n = a := by simpa using h3
            subst h4
            exact List.mem_append_left _ (List.mem_cons_self _ _)
  · rw [if_neg hc] at h
    injection h with h1
    subst h1
    exact Iff.rfl

/-- C9: `record(fid, kind)` does not preserve the pinned flag of the
recorded frame.  On any replacer state in which `fid` occurs exactly once
across the two lists — whatever its current replaceable flag, including
`false` set through `set_replaceable` — if `record fid kind` returns Ok,
then `is_replaceable fid` afterwards answers true, because the node was
re-inserted freshly constructed with `replaceable = true`. -/
theorem record_resets_replaceable (r : MySQLReplacer) (fid : Nat) (k : AccessType)
    (r' : MySQLReplacer)
    (huniq : r.nodes.countP (fun x => x.id == fid) = 1)
    (hok : r.record fid k = RecordResult.ok r') :
    r'.is_replaceable fid = some true := by
  rw [MySQLReplacer.record] at hok
  by_cases hf : fid < r.total_size
  · rw [if_pos hf] at hok
    cases hs : r.recordStep fid k with
    | none => rw [hs] at hok; cases hok
    | some r1 =>
      rw [hs] at hok
      replace hok :
          (match r1.demoteStep with
           | none => RecordResult.panic
           | some r2 =>
             if r2.young_frames.length ≤ r2.max_young_size then
               if r2.old_frames.length ≤ r2.total_size - r2.max_young_size then
                 RecordResult.ok r2
               else RecordResult.panic
             else RecordResult.panic) = RecordResult.ok r' := hok
      cases hd : r1.demoteStep with
      | none => rw [hd] at hok; cases hok
      | some r2 =>
        rw [hd] at hok
        replace hok :
            (if r2.young_frames.length ≤ r2.max_young_size then
               if r2.old_frames.length ≤ r2.total_size - r2.max_young_size then
                 RecordResult.ok r2
               else RecordResult.panic
             else RecordResult.panic) = RecordResult.ok r' := hok
        by_cases ha1 : r2.young_frames.length ≤ r2.max_young_size
        · rw [if_pos ha1] at hok
          by_cases ha2 : r2.old_frames.length ≤ r2.total_size - r2.max_young_size
          · rw [if_pos ha2] at hok
            injection hok with h1
            subst h1
            rcases recordStep_fresh r fid k r1 huniq hs with ⟨hex, hall⟩
            apply is_replaceable_of_fresh
            · rcases hex with ⟨n, hn, hnid⟩
              exact ⟨n, (demoteStep_mem r1 r2 hd n).mpr hn, hnid⟩
            · intro n hn hnid
              exact hall n ((demoteStep_mem r1 r2 hd n).mp hn) hnid
          · rw [if_neg ha2] at hok; cases hok
        · rw [if_neg ha1] at hok; cases hok
  · rw [if_neg hf] at hok; cases hok

/-- C9 witness: pin frame 0 through `set_replaceable`, observe the flag is
false, `record` it again, and observe `is_replaceable` now answers true. -/
theorem record_resets_replaceable_witness :
    (⟨4, 2, [], [⟨0, true⟩]⟩ : MySQLReplacer).set_replaceable 0 false =
      some ⟨4, 2, [], [⟨0, false⟩]⟩ ∧
    (⟨4, 2, [], [⟨0, false⟩]⟩ : MySQLReplacer).is_replaceable 0 = some false ∧
    (⟨4, 2, [], [⟨0, false⟩]⟩ : MySQLReplacer).record 0 AccessType.Scan =
      RecordResult.ok ⟨4, 2, [], [⟨0, true⟩]⟩ ∧
    (⟨4, 2, [], [⟨0, true⟩]⟩ : MySQLReplacer).is_replaceable 0 = some true :=
  ⟨by decide, by decide, by decide,
   record_resets_replaceable ⟨4, 2, [], [⟨0, false⟩]⟩ 0 AccessType.Scan
     ⟨4, 2, [], [⟨0, true⟩]⟩ (by decide) (by decide)⟩

/-- A read guard that `ReadPageGuard::new` actually produced dereferences to
data (the `panic!` branch of its `Deref` is unreachable). -/
theorem readGuard_new_backed (s : Swip) (g : ReadPageGuard)
    (h : ReadPageGuard.new s = some g) : g.deref.isSome := by
  rw [ReadPageGuard.new] at h
  by_cases hn : s.data.isNone
  · rw [if_pos hn] at h; cases h
  · rw [if_neg hn] at h
    injection h with h1
    subst h1
    show s.data.isSome = true
    cases hd : s.data with
    | none => exact absurd (by rw [hd]; rfl) hn
    | some v => rfl


/-- A write guard that `WritePageGuard::new` actually produced dereferences
to data. -/
theorem writeGuard_new_backed (s : Swip) (g : WritePageGuard)
    (h : WritePageGuard.new s = some g) : g.deref.isSome := by
  rw [WritePageGuard.new] at h
  by_cases hn : s.data.isNone
  · rw [if_pos hn] at h; cases h
  · rw [if_neg hn] at h
    injection h with h1
    subst h1
    show s.data.isSome = true
    cases hd : s.data with
    | none => exact absurd (by rw [hd]; rfl) hn
    | some v => rfl


/-- A successful `Page::load` leaves the swip occupied. -/
theorem Page.load_ok_swip (p : Page) (fr : FrameData)
    (dr : FrameData → Option FrameData) (p2 : Page)
    (h : Page.load p fr dr = LoadResult.ok p2) : p2.swip.data.isSome := by
  rw [Page.load] at h
  by_cases hc : p.state = COLD
  · rw [if_pos hc] at h
    cases hdr : dr fr with
    | none => rw [hdr] at h; cases h
    | some f => rw [hdr] at h; injection h with h1; subst h1; rfl
  · rw [if_neg hc] at h; cases h

/-- Every read guard `Page::read` returns dereferences to data. -/
theorem Page.read_guard_backed (p : Page) (fr : FrameData)
    (dr : FrameData → Option FrameData) (g : ReadPageGuard) (p' : Page)
    (h : Page.read p fr dr = PageReadResult.ok g p') : g.deref.isSome := by
  obtain ⟨st, ⟨dd⟩⟩ := p
  cases dd with
  | some v =>
    replace h : PageReadResult.ok ⟨⟨some v⟩⟩ ⟨Temperature.try_hot st, ⟨some v⟩⟩ =
        PageReadResult.ok g p' := h
    injection h with h1 h2
    subst h1
    rfl
  | none =>
    replace h :
        (match Page.load ⟨Temperature.try_hot st, ⟨none⟩⟩ fr dr with
         | LoadResult.panic => PageReadResult.panic
         | LoadResult.ok p2 =>
           match ReadPageGuard.new p2.swip with
           | none => PageReadResult.panic
           | some g => PageReadResult.ok g p2) = PageReadResult.ok g p' := h
    cases hl : Page.load ⟨Temperature.try_hot st, ⟨none⟩⟩ fr dr with
    | panic => rw [hl] at h; cases h
    | ok p2 =>
      rw [hl] at h
      replace h :
          (match ReadPageGuard.new p2.swip with
           | none => PageReadResult.panic
           | some g => PageReadResult.ok g p2) = PageReadResult.ok g p' := h
      cases hn : ReadPageGuard.new p2.swip with
      | none => rw [hn] at h; cases h
      | some g0 =>
        rw [hn] at h
        injection h with h1 h2
        subst h1
        exact readGuard_new_backed p2.swip g0 hn

/-- Every write guard `Page::write` returns dereferences to data. -/
theorem Page.write_guard_backed (p : Page) (fr : FrameData)
    (dr : FrameData → Option FrameData) (wg : WritePageGuard) (p' : Page)
    (h : Page.write p fr dr = PageWriteResult.ok wg p') : wg.deref.isSome := by
  obtain ⟨st, ⟨dd⟩⟩ := p
  cases dd with
  | some v =>
    replace h : PageWriteResult.ok ⟨⟨some v⟩⟩ ⟨Temperature.try_hot st, ⟨some v⟩⟩ =
        PageWriteResult.ok wg p' := h
    injection h with h1 h2
    subst h1
    rfl
  | none =>
    replace h :
        (match Page.load ⟨Temperature.try_hot st, ⟨none⟩⟩ fr dr with
         | LoadResult.panic => PageWriteResult.panic
         | LoadResult.ok p2 =>
           match WritePageGuard.new p2.swip with
           | none => PageWriteResult.panic
           | some g => PageWriteResult.ok g p2) = PageWriteResult.ok wg p' := h
    cases hl : Page.load ⟨Temperature.try_hot st, ⟨none⟩⟩ fr dr with
    | panic => rw [hl] at h; cases h
    | ok p2 =>
      rw [hl] at h
      replace h :
          (match WritePageGuard.new p2.swip with
           | none => PageWriteResult.panic
           | some g => PageWriteResult.ok g p2) = PageWriteResult.ok wg p' := h
      cases hn : WritePageGuard.new p2.swip with
      | none => rw [hn] at h; cases h
      | some g0 =>
        rw [hn] at h
        injection h with h1 h2
        subst h1
        exact writeGuard_new_backed p2.swip g0 hn

/-- C10: guard construction refuses an empty swip (`new` returns `None`),
and every `ReadPageGuard` or `WritePageGuard` obtained through the public
`Page::read` / `Page::write` paths refers to a swip holding data, so the
panic branches of the guards' `Deref`/`DerefMut` implementations are
unreachable for those guards. -/
theorem page_guards_hold_frames (p q : Page) (fr fr2 : FrameData)
    (dr dr2 : FrameData → Option FrameData) (g : ReadPageGuard) (p' : Page)
    (wg : WritePageGuard) (q' : Page)
    (hr : Page.read p fr dr = PageReadResult.ok g p')
    (hw : Page.write q fr2 dr2 = PageWriteResult.ok wg q') :
    ReadPageGuard.new ⟨none⟩ = none ∧ WritePageGuard.new ⟨none⟩ = none ∧
    g.deref.isSome ∧ wg.deref.isSome :=
  ⟨rfl, rfl, Page.read_guard_backed p fr dr g p' hr,
   Page.write_guard_backed q fr2 dr2 wg q' hw⟩

/-- C10 witness: concrete resident pages whose read and write guards hold
frames. -/
theorem page_guards_hold_frames_witness :
    ReadPageGuard.new ⟨none⟩ = none ∧ WritePageGuard.new ⟨none⟩ = none ∧
    (ReadPageGuard.mk ⟨some 7⟩).deref.isSome ∧
    (WritePageGuard.mk ⟨some 9⟩).deref.isSome :=
  page_guards_hold_frames ⟨COOL, ⟨some 7⟩⟩ ⟨COOL, ⟨some 9⟩⟩ 0 0
    (fun _ => some 3) (fun _ => some 3) ⟨⟨some 7⟩⟩ ⟨HOT, ⟨some 7⟩⟩
    ⟨⟨some 9⟩⟩ ⟨HOT, ⟨some 9⟩⟩ rfl rfl
